import Mathlib

/-!
# api-vault credential store: shallow embedding of `core/database.go`

This file embeds the credential-vault core (`src/core/database.go`) in Lean:
the field-level cipher, the credential and rotation-audit data model, the
store operations (`AddCredentialV2`, `GetCredentialV2`, `ListCredentials`,
`DeleteCredential`, `RotateCredential`, `GetRotationHistory`), the salt
bootstrap (`loadOrCreateSalt`) and the schema migration (`migrateV2`), and
proves the spec-level properties about them.

Modelling conventions:
* Bytes are `Nat`; byte strings are `List Nat`.  Go strings convert to byte
  slices via `strBytes` / `bytesStr`.
* SQL tables are Lean lists of row structures; `WHERE name = ?` is a filter
  or `find?` on the row's name field; `ORDER BY` is an insertion sort.
* Wall-clock time (`time.Now().Unix()`), random row ids (`newID`) and random
  nonces (`rand.Read`) are passed in as explicit parameters.
* The sqlite connection is opened with only `_pragma_key` in the DSN
  (`database.go:98`); SQLite leaves foreign-key enforcement OFF by default,
  so the `FOREIGN KEY ... ON DELETE CASCADE` clause on the `rotations`
  table is not enforced: `DELETE FROM credentials` does not cascade into
  `rotations`, and an `INSERT INTO rotations` is not checked against the
  `credentials` table.  The embedding reflects that.
* AES-256-GCM from Go's standard library is modelled structurally: sealing
  produces `ciphertext ++ tag` where the ciphertext is the plaintext XORed
  with a key/nonce-determined keystream (GCM runs AES in counter mode, so
  ciphertext length equals plaintext length) and the tag is 16 bytes
  recomputed on open; `gcm.Seal(nonce, nonce, pt, nil)` prepends the nonce.
  Opening recomputes the tag and fails on mismatch or truncated input.
-/

set_option autoImplicit false

namespace ApiVault

/-- `saltLen` constant from `database.go`. -/
def saltLen : Nat := 16

/-- `nonceLen` constant from `database.go` (GCM standard nonce size). -/
def nonceLen : Nat := 12

/-- GCM authentication tag size (16 bytes, `gcm.Overhead()`). -/
def tagLen : Nat := 16

/-- One byte of the AES-CTR keystream for a given key and nonce.  A concrete
stand-in for the AES block cipher: deterministic in `(key, nonce, index)`. -/
def keystreamByte (key nonce : List Nat) (i : Nat) : Nat :=
  (key.sum * 131 + nonce.sum * 31 + i * 7 + 13) % 256

/-- The first `n` keystream bytes for `(key, nonce)`. -/
def keystream (key nonce : List Nat) (n : Nat) : List Nat :=
  (List.range n).map (keystreamByte key nonce)

/-- Pointwise XOR of two byte strings (counter-mode encryption step). -/
def xorBytes (a b : List Nat) : List Nat :=
  List.zipWith Nat.xor a b

/-- The 16-byte GCM authentication tag over the ciphertext, recomputable
from key, nonce and ciphertext (as `gcm.Open` does). -/
def gcmTag (key nonce ct : List Nat) : List Nat :=
  (List.range tagLen).map (fun i => (key.sum * 7 + nonce.sum * 11 + ct.sum * 13 + i) % 256)

/-- `gcm.Seal nil nonce pt nil`: ciphertext (same length as plaintext)
followed by the 16-byte tag over the ciphertext. -/
def gcmSeal (key nonce pt : List Nat) : List Nat :=
  let ct := xorBytes pt (keystream key nonce pt.length)
  ct ++ gcmTag key nonce ct

/-- `gcm.Open nil nonce data nil`: split off the trailing 16-byte tag,
recompute it over the ciphertext, fail on mismatch or short input,
otherwise undo the keystream XOR. -/
def gcmOpen (key nonce data : List Nat) : Option (List Nat) :=
  if data.length < tagLen then none
  else
    let ct := data.take (data.length - tagLen)
    let tg := data.drop (data.length - tagLen)
    if tg = gcmTag key nonce ct then some (xorBytes ct (keystream key nonce ct.length))
    else none

/-- Sentinel errors of `database.go`, plus the spec taxonomy for validation
(`InvalidInput`) and underlying persistence failures (`StoreError`). -/
inductive DBError where
  | notFound
  | duplicate
  | decryptFail
  | invalidInput (msg : String)
  | storeError
deriving DecidableEq, Repr

/-- `(d *Database) encrypt`: fresh random `nonce` (passed explicitly),
result is `gcm.Seal(nonce, nonce, plaintext, nil)` = nonce prepended to
ciphertext+tag. -/
def encrypt (key nonce plaintext : List Nat) : List Nat :=
  nonce ++ gcmSeal key nonce plaintext

/-- `(d *Database) decrypt`: reject inputs shorter than the nonce, then
`gcm.Open` on the remainder; every failure collapses to `ErrDecryptFail`. -/
def decrypt (key data : List Nat) : Except DBError (List Nat) :=
  if data.length < nonceLen then .error .decryptFail
  else
    match gcmOpen key (data.take nonceLen) (data.drop nonceLen) with
    | none => .error .decryptFail
    | some plain => .ok plain

/-- Go `[]byte(s)` conversion (one code point per entry; invertible). -/
def strBytes (s : String) : List Nat :=
  s.data.map Char.toNat

/-- Go `string(b)` conversion back from `strBytes`. -/
def bytesStr (l : List Nat) : String :=
  ⟨l.map Char.ofNat⟩

/-- `deriveKey`: Argon2id modelled as a deterministic function of password
and salt producing a 32-byte key. -/
def deriveKey (password : String) (salt : List Nat) : List Nat :=
  keystream (strBytes password) salt 32

/-- One row of the `credentials` table after the v2 migration.  `api_key`
is `BLOB NOT NULL` (possibly empty); nullable columns are `Option`; the
`config` column holds the JSON of a string map, modelled as the map's
entry list; integer timestamp columns are `Int` (Unix seconds). -/
structure CredRow where
  id : String
  name : String
  apiKey : List Nat
  apiType : Option String
  metadata : Option String
  environment : Option String
  publicKey : Option (List Nat)
  url : Option String
  config : Option (List (String × String))
  keyId : Option String
  lastRotated : Option Int
  createdAt : Int
  updatedAt : Int
deriving DecidableEq, Repr

/-- One row of the `rotations` table.  `rotated_fields` holds the JSON of a
`[]string`, modelled as the list itself; `metadata` likewise for the map. -/
structure RotRow where
  id : String
  credentialName : String
  rotatedFields : List String
  oldKeyId : Option String
  newKeyId : String
  pluginName : String
  rotatedAt : Int
  rotatedBy : String
  metadata : Option (List (String × String))
deriving DecidableEq, Repr

/-- The `Database` state: the in-memory AES key plus the three tables
(`credentials`, `rotations`, `config`; the last maps text keys to blobs
and holds only the salt). -/
structure Database where
  key : List Nat
  credentials : List CredRow
  rotations : List RotRow
  configTable : List (String × List Nat)
deriving DecidableEq, Repr

/-- Result of a mutating store call: `ok` carries the persisted state after
commit, `fail` carries the error and the persisted state after rollback. -/
inductive DBResult where
  | ok (d : Database)
  | fail (e : DBError) (d : Database)
deriving DecidableEq, Repr

/-- The Go `Credential` struct (V2 model).  Plain string fields are `""`
when unset, pointer fields are `Option`, `Config` is a string map modelled
as its entry list, `*time.Time` fields are `Option Int`. -/
structure Credential where
  id : String := ""
  name : String := ""
  apiType : String := ""
  metadata : String := ""
  environment : Option String := none
  publicKey : Option String := none
  secretKey : Option String := none
  url : Option String := none
  config : List (String × String) := []
  keyId : Option String := none
  lastRotated : Option Int := none
  createdAt : Int := 0
  updatedAt : Int := 0
deriving DecidableEq, Repr

/-- `(c *Credential) Validate`: `name` must be non-empty and at least one
of the secret/public pointers non-nil.  Returns the error, `none` if valid
(the error messages map to the spec's `InvalidInput` kind). -/
def Credential.Validate (c : Credential) : Option DBError :=
  if c.name = "" then some (.invalidInput "name is required")
  else if c.secretKey = none ∧ c.publicKey = none then
    some (.invalidInput "at least one of secret or public key is required")
  else none

/-- `(c *Credential) HasSecret`: pointer non-nil and value non-empty. -/
def Credential.HasSecret (c : Credential) : Bool :=
  match c.secretKey with
  | some s => s ≠ ""
  | none => false

/-- `(c *Credential) HasPublic`: pointer non-nil and value non-empty. -/
def Credential.HasPublic (c : Credential) : Bool :=
  match c.publicKey with
  | some p => p ≠ ""
  | none => false

/-- The Go `RotationResult` struct (rotation plugin outcome). -/
structure RotationResult where
  newSecretKey : Option String := none
  newPublicKey : Option String := none
  newURL : Option String := none
  keyId : String := ""
  oldKeyGrace : Int := 0
  metadata : List (String × String) := []
deriving DecidableEq, Repr

/-- The Go `RotationRecord` struct returned by `GetRotationHistory`. -/
structure RotationRecord where
  id : String
  rotatedFields : List String
  newKeyId : String
  pluginName : String
  rotatedAt : Int
  rotatedBy : String
  metadata : List (String × String)
deriving DecidableEq, Repr

/-- `SELECT ... FROM credentials WHERE name = ?` (name is UNIQUE, so the
first match is the row). -/
def findCred (d : Database) (name : String) : Option CredRow :=
  d.credentials.find? (fun r => r.name = name)

/-- `AddCredentialV2`: validate; seal the secret (an empty blob satisfies
the NOT NULL column when there is no secret); seal the public value (a nil
slice, i.e. SQL NULL, when there is none); JSON-encode the config map if
non-empty; INSERT, mapping a UNIQUE violation on `name` to `ErrDuplicate`.
`nonceS`/`nonceP` are the fresh random nonces consumed by the two `encrypt`
calls, `id` the fresh row id, `now` the Unix timestamp. -/
def AddCredentialV2 (d : Database) (cred : Credential) (nonceS nonceP : List Nat)
    (id : String) (now : Int) : DBResult :=
  match cred.Validate with
  | some e => .fail e d
  | none =>
    let secretBlob : List Nat :=
      match cred.secretKey with
      | some s => if s = "" then [] else encrypt d.key nonceS (strBytes s)
      | none => []
    let publicBlob : Option (List Nat) :=
      match cred.publicKey with
      | some p => if p = "" then none else some (encrypt d.key nonceP (strBytes p))
      | none => none
    let cfgJSON : Option (List (String × String)) :=
      if cred.config = [] then none else some cred.config
    if d.credentials.any (fun r => r.name = cred.name) then .fail .duplicate d
    else
      .ok { d with credentials := d.credentials ++
        [{ id := id, name := cred.name, apiKey := secretBlob,
           apiType := some cred.apiType, metadata := none,
           environment := cred.environment, publicKey := publicBlob,
           url := cred.url, config := cfgJSON, keyId := cred.keyId,
           lastRotated := none, createdAt := now, updatedAt := now }] }

/-- `GetCredentialV2`: look up the row, copy the plain columns, decrypt the
secret blob only when non-empty (the empty placeholder blob and a NULL
public column are skipped, leaving the pointer nil), decode the config. -/
def GetCredentialV2 (d : Database) (name : String) : Except DBError Credential :=
  match findCred d name with
  | none => .error .notFound
  | some r =>
    let secretRes : Except DBError (Option String) :=
      if 0 < r.apiKey.length then
        match decrypt d.key r.apiKey with
        | .error e => .error e
        | .ok plain => .ok (some (bytesStr plain))
      else .ok none
    let publicRes : Except DBError (Option String) :=
      match r.publicKey with
      | some blob =>
        if 0 < blob.length then
          match decrypt d.key blob with
          | .error e => .error e
          | .ok plain => .ok (some (bytesStr plain))
        else .ok none
      | none => .ok none
    match secretRes with
    | .error e => .error e
    | .ok sk =>
      match publicRes with
      | .error e => .error e
      | .ok pk =>
        .ok { id := r.id, name := r.name, apiType := r.apiType.getD "",
              metadata := r.metadata.getD "", environment := r.environment,
              publicKey := pk, secretKey := sk, url := r.url,
              config := (r.config.getD []), keyId := r.keyId,
              lastRotated := r.lastRotated,
              createdAt := r.createdAt, updatedAt := r.updatedAt }

/-- Insertion step of `ORDER BY name` (ascending, stable). -/
def insertByName (r : CredRow) : List CredRow → List CredRow
  | [] => [r]
  | x :: xs => if r.name ≤ x.name then r :: x :: xs else x :: insertByName r xs

/-- `ORDER BY name` on the credentials table. -/
def sortByName : List CredRow → List CredRow
  | [] => []
  | x :: xs => insertByName x (sortByName xs)

/-- The column projection of `ListCredentials`: only `id, name, api_type,
metadata, created_at, updated_at` are selected; every other field of the
returned struct stays at its zero value — in particular no key material. -/
def credMeta (r : CredRow) : Credential :=
  { id := r.id, name := r.name, apiType := r.apiType.getD "",
    metadata := r.metadata.getD "", createdAt := r.createdAt,
    updatedAt := r.updatedAt }

/-- `ListCredentials`: metadata of every row, ordered by name. -/
def ListCredentials (d : Database) : List Credential :=
  (sortByName d.credentials).map credMeta

/-- `DeleteCredential`: `DELETE FROM credentials WHERE name = ?`; zero rows
affected means `ErrNotFound`.  Foreign keys are not enforced on this
connection, so the declared `ON DELETE CASCADE` does not run: the
`rotations` table is left untouched. -/
def DeleteCredential (d : Database) (name : String) : DBResult :=
  let remaining := d.credentials.filter (fun r => ¬ r.name = name)
  if remaining.length = d.credentials.length then .fail .notFound d
  else .ok { d with credentials := remaining }

/-- `lookupConfig`: `SELECT value FROM config WHERE key = ?`. -/
def lookupConfig (tbl : List (String × List Nat)) (k : String) : Option (List Nat) :=
  (tbl.find? (fun p => p.1 = k)).map Prod.snd

/-- `INSERT OR REPLACE INTO config (key, value) VALUES (?, ?)`. -/
def insertOrReplaceConfig (tbl : List (String × List Nat)) (k : String)
    (v : List Nat) : List (String × List Nat) :=
  if tbl.any (fun p => p.1 = k) then
    tbl.map (fun p => if p.1 = k then (k, v) else p)
  else tbl ++ [(k, v)]

/-- `loadOrCreateSalt`: return the stored salt only when the row exists and
holds exactly `saltLen` bytes; otherwise generate a fresh salt (`fresh`,
standing for `rand.Read`) and INSERT OR REPLACE it.  Returns the salt and
the resulting config table. -/
def loadOrCreateSalt (tbl : List (String × List Nat)) (fresh : List Nat) :
    List Nat × List (String × List Nat) :=
  match lookupConfig tbl "salt" with
  | some v =>
    if v.length = saltLen then (v, tbl)
    else (fresh, insertOrReplaceConfig tbl "salt" fresh)
  | none => (fresh, insertOrReplaceConfig tbl "salt" fresh)

/-- `UPDATE credentials SET ... WHERE name = ?`: rewrite every matching row
with `g` (names are UNIQUE, so at most one row matches in practice). -/
def updateWhere (l : List CredRow) (name : String) (g : CredRow → CredRow) :
    List CredRow :=
  l.map (fun r => if r.name = name then g r else r)

/-- Fault oracle for `RotateCredential`: which of the statements inside the
transaction fails (`tx.Exec` returning an error, or `tx.Commit` failing).
`false` everywhere means every statement succeeds. -/
structure RotateFaults where
  failSecretUpd : Bool := false
  failPublicUpd : Bool := false
  failUrlUpd : Bool := false
  failKeyIdUpd : Bool := false
  failStampUpd : Bool := false
  failInsert : Bool := false
  failCommit : Bool := false
deriving DecidableEq, Repr

/-- The rotation audit row inserted by `RotateCredential` (`old_key_id` is
inserted as NULL, metadata as NULL when the map is empty). -/
def mkRotRow (recId name : String) (fields : List String) (keyId pluginName : String)
    (now : Int) (rotatedBy : String) (meta : List (String × String)) : RotRow :=
  { id := recId, credentialName := name, rotatedFields := fields,
    oldKeyId := none, newKeyId := keyId, pluginName := pluginName,
    rotatedAt := now, rotatedBy := rotatedBy,
    metadata := if meta = [] then none else some meta }

/-- The body of `RotateCredential`'s transaction: (a) re-encrypt and
update each field present in the outcome, collecting the touched column
names in `fields`; (b) update `key_id` when the outcome carries one;
(c) stamp `last_rotated`/`updated_at`; (d) insert one `rotations` row
whose `rotated_fields` is the collected list.  Any statement failure (per
the fault oracle) propagates as an error.  Foreign keys are not enforced,
so the insert is not checked against `credentials`.  `nonceS`/`nonceP`
are the nonces for the two `encrypt` calls, `recId` the fresh audit-row
id, `now` the Unix timestamp. -/
def rotateTx (d : Database) (name : String) (result : RotationResult)
    (pluginName rotatedBy : String) (now : Int) (recId : String)
    (nonceS nonceP : List Nat) (f : RotateFaults) : Except DBError Database :=
  let step1 : Except DBError (List CredRow × List String) :=
    match result.newSecretKey with
    | none => .ok (d.credentials, [])
    | some s =>
      if f.failSecretUpd then .error .storeError
      else .ok (updateWhere d.credentials name
          (fun r => { r with apiKey := encrypt d.key nonceS (strBytes s), updatedAt := now }),
        ["secret_key"])
  match step1 with
  | .error e => .error e
  | .ok (c1, fs1) =>
    let step2 : Except DBError (List CredRow × List String) :=
      match result.newPublicKey with
      | none => .ok (c1, fs1)
      | some p =>
        if f.failPublicUpd then .error .storeError
        else .ok (updateWhere c1 name
            (fun r => { r with publicKey := some (encrypt d.key nonceP (strBytes p)), updatedAt := now }),
          fs1 ++ ["public_key"])
    match step2 with
    | .error e => .error e
    | .ok (c2, fs2) =>
      let step3 : Except DBError (List CredRow × List String) :=
        match result.newURL with
        | none => .ok (c2, fs2)
        | some u =>
          if f.failUrlUpd then .error .storeError
          else .ok (updateWhere c2 name
              (fun r => { r with url := some u, updatedAt := now }),
            fs2 ++ ["url"])
      match step3 with
      | .error e => .error e
      | .ok (c3, fs3) =>
        let step4 : Except DBError (List CredRow) :=
          if result.keyId = "" then .ok c3
          else if f.failKeyIdUpd then .error .storeError
          else .ok (updateWhere c3 name
            (fun r => { r with keyId := some result.keyId, updatedAt := now }))
        match step4 with
        | .error e => .error e
        | .ok c4 =>
          if f.failStampUpd then .error .storeError
          else
            let c5 := updateWhere c4 name
              (fun r => { r with lastRotated := some now, updatedAt := now })
            if f.failInsert then .error .storeError
            else
              .ok { d with
                credentials := c5,
                rotations := d.rotations ++
                  [mkRotRow recId name fs3 result.keyId pluginName now rotatedBy
                    result.metadata] }

/-- `RotateCredential`: run the transaction body, then `tx.Commit`.  On
any error (a failed statement, or a failed commit) the deferred
`tx.Rollback` discards the transaction, so the persisted state is the
original `d`; on a successful commit the persisted state is the
transaction's. -/
def RotateCredential (d : Database) (name : String) (result : RotationResult)
    (pluginName rotatedBy : String) (now : Int) (recId : String)
    (nonceS nonceP : List Nat) (f : RotateFaults) : DBResult :=
  match rotateTx d name result pluginName rotatedBy now recId nonceS nonceP f with
  | .error e => .fail e d
  | .ok st => if f.failCommit then .fail .storeError d else .ok st

/-- Insertion step of `ORDER BY rotated_at DESC`. -/
def insertByRotatedAtDesc (r : RotRow) : List RotRow → List RotRow
  | [] => [r]
  | x :: xs =>
    if x.rotatedAt < r.rotatedAt then r :: x :: xs
    else x :: insertByRotatedAtDesc r xs

/-- `ORDER BY rotated_at DESC` on a list of rotation rows. -/
def sortByRotatedAtDesc : List RotRow → List RotRow
  | [] => []
  | x :: xs => insertByRotatedAtDesc x (sortByRotatedAtDesc xs)

/-- Row-to-struct conversion done by `GetRotationHistory`'s scan loop
(`new_key_id` NULL reads as `""`, NULL metadata as the nil map). -/
def rotRecordOf (r : RotRow) : RotationRecord :=
  { id := r.id, rotatedFields := r.rotatedFields, newKeyId := r.newKeyId,
    pluginName := r.pluginName, rotatedAt := r.rotatedAt,
    rotatedBy := r.rotatedBy, metadata := r.metadata.getD [] }

/-- `GetRotationHistory`: rows of `rotations` for the credential, newest
first, at most `limit` (callers pass a nonnegative LIMIT). -/
def GetRotationHistory (d : Database) (name : String) (limit : Nat) :
    List RotationRecord :=
  ((sortByRotatedAtDesc (d.rotations.filter (fun r => r.credentialName = name))).take
    limit).map rotRecordOf

/-- Schema introspection state for `migrateV2`: the column names of the
`credentials` table and whether the `rotations` table exists. -/
structure Schema where
  credCols : List String
  hasRotationsTable : Bool
deriving DecidableEq, Repr

/-- Columns created by the v1 `CREATE TABLE credentials`. -/
def v1Cols : List String :=
  ["id", "name", "api_key", "api_type", "metadata", "created_at", "updated_at"]

/-- The schema right after `NewDatabase`'s v1 DDL on a fresh file. -/
def v1Schema : Schema := { credCols := v1Cols, hasRotationsTable := false }

/-- The six columns added by `migrateV2`, in statement order. -/
def migrationCols : List String :=
  ["environment", "public_key", "url", "config", "key_id", "last_rotated"]

/-- `ALTER TABLE credentials ADD COLUMN c`: SQLite fails with a
duplicate-column-name error when the column already exists (there is no
IF NOT EXISTS form for columns). -/
def addColumn (s : Schema) (c : String) : Except DBError Schema :=
  if c ∈ s.credCols then .error .storeError
  else .ok { s with credCols := s.credCols ++ [c] }

/-- `migrateV2`: no-op when `PRAGMA table_info` shows `public_key`;
otherwise run the six ALTERs in order (stopping at the first error), then
`CREATE TABLE IF NOT EXISTS rotations` plus its indexes (idempotent). -/
def migrateV2 (s : Schema) : Except DBError Schema :=
  if "public_key" ∈ s.credCols then .ok s
  else
    match migrationCols.foldlM addColumn s with
    | .error e => .error e
    | .ok s1 => .ok { s1 with hasRotationsTable := true }

/-- A run of `migrateV2`'s ALTER sequence that crashed after the first `k`
statements succeeded (before reaching the rest): the schema such a partial
run leaves behind. -/
def applyAlters (s : Schema) (k : Nat) : Schema :=
  (migrationCols.take k).foldl
    (fun t c => { t with credCols := t.credCols ++ [c] }) s

/-- Two credential rows that agree on every column except the encrypted
`api_key` and `public_key` blobs (the hypothesis of the C9 noninterference
statement: stores "differing only in the encrypted secret/public values"). -/
def metaEqExceptSecrets (r1 r2 : CredRow) : Prop :=
  r1.id = r2.id ∧ r1.name = r2.name ∧ r1.apiType = r2.apiType ∧
  r1.metadata = r2.metadata ∧ r1.environment = r2.environment ∧
  r1.url = r2.url ∧ r1.config = r2.config ∧ r1.keyId = r2.keyId ∧
  r1.lastRotated = r2.lastRotated ∧ r1.createdAt = r2.createdAt ∧
  r1.updatedAt = r2.updatedAt

/-- The `fields` list accumulated by `RotateCredential`: one entry per
outcome field that is set (non-nil pointer), in statement order. -/
def rotatedFieldsOf (result : RotationResult) : List String :=
  (match result.newSecretKey with | some _ => ["secret_key"] | none => []) ++
    (match result.newPublicKey with | some _ => ["public_key"] | none => []) ++
    (match result.newURL with | some _ => ["url"] | none => [])

/-- The state `RotateCredential` commits when every statement succeeds:
the composite of the conditional field updates, the stamp update and the
single audit-row insert.  Used to characterise the success branch. -/
def rotateApplied (d : Database) (name : String) (result : RotationResult)
    (pluginName rotatedBy : String) (now : Int) (recId : String)
    (nonceS nonceP : List Nat) : Database :=
  let c1 := match result.newSecretKey with
    | none => d.credentials
    | some s => updateWhere d.credentials name
        (fun r => { r with apiKey := encrypt d.key nonceS (strBytes s), updatedAt := now })
  let c2 := match result.newPublicKey with
    | none => c1
    | some p => updateWhere c1 name
        (fun r => { r with publicKey := some (encrypt d.key nonceP (strBytes p)), updatedAt := now })
  let c3 := match result.newURL with
    | none => c2
    | some u => updateWhere c2 name (fun r => { r with url := some u, updatedAt := now })
  let c4 := if result.keyId = "" then c3
    else updateWhere c3 name (fun r => { r with keyId := some result.keyId, updatedAt := now })
  let c5 := updateWhere c4 name (fun r => { r with lastRotated := some now, updatedAt := now })
  { d with
    credentials := c5,
    rotations := d.rotations ++
      [mkRotRow recId name (rotatedFieldsOf result) result.keyId pluginName now
        rotatedBy result.metadata] }

/-! ## Concrete instances used in closed theorems -/

/-- A 32-byte key, as produced by `deriveKey`. -/
def demoKey : List Nat := List.replicate 32 5

/-- A 12-byte nonce, as drawn by `encrypt`. -/
def demoNonce : List Nat := List.range 12

/-- A 16-byte salt, as drawn by `loadOrCreateSalt`. -/
def demoSalt : List Nat := List.replicate 16 1

/-- A stored credential row named `x` with an encrypted secret. -/
def rowX : CredRow :=
  { id := "id-x", name := "x", apiKey := encrypt demoKey demoNonce (strBytes "a"),
    apiType := some "generic", metadata := none, environment := none,
    publicKey := none, url := none, config := none, keyId := none,
    lastRotated := none, createdAt := 50, updatedAt := 50 }

/-- A rotation audit row for credential `x`. -/
def rotX : RotRow := mkRotRow "rot-1" "x" ["secret_key"] "" "plug" 60 "manual" []

/-- A store holding credential `x` and its one-entry rotation history. -/
def dDelete : Database :=
  { key := demoKey, credentials := [rowX], rotations := [rotX],
    configTable := [("salt", demoSalt)] }

/-- `dDelete` with the credential row removed but the audit row still there. -/
def dDeleteAfter : Database := { dDelete with credentials := [] }

/-- A store holding only credential `x` (no rotation history yet). -/
def dRotGhost : Database :=
  { key := demoKey, credentials := [rowX], rotations := [],
    configTable := [("salt", demoSalt)] }

/-- A rotation outcome carrying only a new secret. -/
def ghostResult : RotationResult := { newSecretKey := some "n" }

/-- The all-statements-succeed fault oracle. -/
def noFaults : RotateFaults := {}

/-- The fully migrated schema. -/
def fullSchema : Schema :=
  { credCols := v1Cols ++ migrationCols, hasRotationsTable := true }

/-! ## Cipher lemmas -/

theorem length_xorBytes (a b : List Nat) :
    (xorBytes a b).length = min a.length b.length := by
  simp [xorBytes]

theorem length_keystream (key nonce : List Nat) (n : Nat) :
    (keystream key nonce n).length = n := by
  simp [keystream]

theorem length_gcmTag (key nonce ct : List Nat) :
    (gcmTag key nonce ct).length = tagLen := by
  simp [gcmTag]

/-- XOR with the same byte string twice is the identity (counter mode is an
involution on the plaintext). -/
theorem xorBytes_cancel (a b : List Nat) (h : a.length ≤ b.length) :
    xorBytes (xorBytes a b) b = a := by
  induction a generalizing b with
  | nil => cases b <;> simp [xorBytes]
  | cons x xs ih =>
    cases b with
    | nil => simp at h
    | cons y ys =>
      simp only [List.length_cons, Nat.succ_le_succ_iff] at h
      simp only [xorBytes, List.zipWith_cons_cons]
      rw [show Nat.xor (Nat.xor x y) y = x from Nat.xor_cancel_right y x]
      exact congrArg (x :: ·) (ih ys h)

/-- Opening a sealed blob recovers the plaintext. -/
theorem gcmOpen_gcmSeal (key nonce pt : List Nat) :
    gcmOpen key nonce (gcmSeal key nonce pt) = some pt := by
  have hks : (keystream key nonce pt.length).length = pt.length :=
    length_keystream key nonce _
  have hct : (xorBytes pt (keystream key nonce pt.length)).length = pt.length := by
    rw [length_xorBytes, hks, min_self]
  rw [show gcmSeal key nonce pt = xorBytes pt (keystream key nonce pt.length) ++
      gcmTag key nonce (xorBytes pt (keystream key nonce pt.length)) from rfl]
  generalize hc : xorBytes pt (keystream key nonce pt.length) = ct at hct ⊢
  unfold gcmOpen
  have hlen : (ct ++ gcmTag key nonce ct).length = ct.length + tagLen := by
    rw [List.length_append, length_gcmTag]
  rw [hlen, Nat.add_sub_cancel, if_neg (by omega), List.take_left, List.drop_left,
    if_pos rfl, hct, ← hc]
  exact congrArg some (xorBytes_cancel pt _ (le_of_eq hks.symm))

/-- `decrypt` inverts `encrypt` whenever the nonce has the standard length
(as every nonce drawn by `encrypt` does). -/
theorem decrypt_encrypt (key nonce pt : List Nat) (h : nonce.length = nonceLen) :
    decrypt key (encrypt key nonce pt) = .ok pt := by
  have hlong : ¬ (nonce ++ gcmSeal key nonce pt).length < nonceLen := by
    rw [List.length_append, h]
    omega
  unfold encrypt decrypt
  rw [if_neg hlong, ← h, List.take_left, List.drop_left, gcmOpen_gcmSeal]

/-- Byte conversion of strings is invertible. -/
theorem bytesStr_strBytes (s : String) : bytesStr (strBytes s) = s := by
  simp [bytesStr, strBytes, List.map_map, Function.comp_def, Char.ofNat_toNat]

/-! ## Store lemmas -/

/-- `UPDATE ... WHERE name = ?` with a name-preserving row function
commutes with the row lookup. -/
theorem find?_updateWhere (l : List CredRow) (name : String) (g : CredRow → CredRow)
    (hg : ∀ r, (g r).name = r.name) :
    (updateWhere l name g).find? (fun r => decide (r.name = name)) =
      (l.find? (fun r => decide (r.name = name))).map g := by
  induction l with
  | nil => simp [updateWhere]
  | cons x xs ih =>
    have hcons : updateWhere (x :: xs) name g =
        (if x.name = name then g x else x) :: updateWhere xs name g := rfl
    rw [hcons]
    by_cases hx : x.name = name
    · rw [if_pos hx, List.find?_cons_of_pos _ (by simp [hg, hx]),
        List.find?_cons_of_pos _ (by simp [hx])]
      rfl
    · rw [if_neg hx, List.find?_cons_of_neg _ (by simp [hx]),
        List.find?_cons_of_neg _ (by simp [hx]), ih]

/-- Rows whose name does not match are untouched by `updateWhere`. -/
theorem mem_updateWhere_of_ne {l : List CredRow} {name : String}
    {g : CredRow → CredRow} {r : CredRow} (hr : r ∈ l) (hne : r.name ≠ name) :
    r ∈ updateWhere l name g := by
  have h1 := List.mem_map_of_mem (fun r : CredRow => if r.name = name then g r else r) hr
  simpa [updateWhere, hne] using h1

/-- A fault-guarded statement yields a value only when the fault is off,
and then yields only its success value. -/
theorem ite_error_ok_iff {A : Type} (b : Bool) (e : DBError) (x z : A) :
    ((if b = true then (Except.error e : Except DBError A) else .ok x) = .ok z) ↔
      (b = false ∧ x = z) := by
  cases b <;> simp

set_option maxHeartbeats 1600000 in
/-- The transaction body succeeds only with the composite all-updates
state: a successful `rotateTx` returns exactly `rotateApplied`. -/
theorem rotateTx_ok_eq (d : Database) (name : String) (result : RotationResult)
    (pluginName rotatedBy : String) (now : Int) (recId : String)
    (nS nP : List Nat) (f : RotateFaults) (st : Database)
    (htx : rotateTx d name result pluginName rotatedBy now recId nS nP f = .ok st) :
    st = rotateApplied d name result pluginName rotatedBy now recId nS nP := by
  simp only [rotateTx] at htx
  rcases hs : result.newSecretKey with _ | s <;>
    rcases hp : result.newPublicKey with _ | p <;>
    rcases hu : result.newURL with _ | u <;>
    by_cases hk : result.keyId = "" <;>
    simp only [hs, hp, hu, hk, if_pos, if_neg, if_true, if_false] at htx <;>
    (repeat' split at htx) <;>
    simp_all [rotateApplied, rotatedFieldsOf, ite_error_ok_iff]

/-- Every failing `RotateCredential` call leaves the persisted state
unchanged (the deferred rollback discards the transaction). -/
theorem rotate_fail_unchanged (d : Database) (name : String) (result : RotationResult)
    (pluginName rotatedBy : String) (now : Int) (recId : String)
    (nS nP : List Nat) (f : RotateFaults) (e : DBError) (dr : Database)
    (hfail : RotateCredential d name result pluginName rotatedBy now recId nS nP f =
      .fail e dr) : dr = d := by
  unfold RotateCredential at hfail
  rcases htx : rotateTx d name result pluginName rotatedBy now recId nS nP f with e1 | st <;>
    rw [htx] at hfail
  · simp_all
  · cases hfc : f.failCommit <;> rw [hfc] at hfail <;> simp_all

/-- A successful `RotateCredential` call is a successful transaction body
followed by a successful commit. -/
theorem rotate_ok_tx (d : Database) (name : String) (result : RotationResult)
    (pluginName rotatedBy : String) (now : Int) (recId : String)
    (nS nP : List Nat) (f : RotateFaults) (d' : Database)
    (hok : RotateCredential d name result pluginName rotatedBy now recId nS nP f =
      .ok d') :
    rotateTx d name result pluginName rotatedBy now recId nS nP f = .ok d' := by
  unfold RotateCredential at hok
  rcases htx : rotateTx d name result pluginName rotatedBy now recId nS nP f with e1 | st <;>
    rw [htx] at hok
  · simp_all
  · cases hfc : f.failCommit <;> rw [hfc] at hok <;> simp_all

/-- Descending insertion sort puts a strictly-greatest last element at the
head. -/
theorem sortDesc_append_greatest (l : List RotRow) (x : RotRow)
    (h : ∀ y ∈ l, y.rotatedAt < x.rotatedAt) :
    ∃ t, sortByRotatedAtDesc (l ++ [x]) = x :: t := by
  induction l with
  | nil => exact ⟨[], rfl⟩
  | cons a l ih =>
    obtain ⟨t, ht⟩ := ih (fun y hy => h y (List.mem_cons_of_mem _ hy))
    have ha := h a (List.mem_cons_self a l)
    refine ⟨insertByRotatedAtDesc a t, ?_⟩
    have key : sortByRotatedAtDesc ((a :: l) ++ [x]) =
        insertByRotatedAtDesc a (sortByRotatedAtDesc (l ++ [x])) := rfl
    rw [key, ht]
    simp only [insertByRotatedAtDesc]
    rw [if_neg (by omega)]

/-- Taking a positive prefix preserves the head. -/
theorem head?_take {α : Type} (l : List α) (n : Nat) (hn : 1 ≤ n) :
    (l.take n).head? = l.head? := by
  cases l <;> cases n <;> simp_all

/-- `metaEqExceptSecrets` rows produce the same `ListCredentials` entry. -/
theorem credMeta_congr {r1 r2 : CredRow} (h : metaEqExceptSecrets r1 r2) :
    credMeta r1 = credMeta r2 := by
  obtain ⟨h1, h2, h3, h4, h5, h6, h7, h8, h9, h10, h11⟩ := h
  simp [credMeta, h1, h2, h3, h4, h10, h11]

/-- Sorted insertion respects pairwise `metaEqExceptSecrets` (the sort key
`name` is one of the agreeing columns). -/
theorem insertByName_forall2 {r1 r2 : CredRow} {l1 l2 : List CredRow}
    (hr : metaEqExceptSecrets r1 r2)
    (hl : List.Forall₂ metaEqExceptSecrets l1 l2) :
    List.Forall₂ metaEqExceptSecrets (insertByName r1 l1) (insertByName r2 l2) := by
  induction hl with
  | nil => exact .cons hr .nil
  | @cons x y l1 l2 hxy htail ih =>
    have hn1 : r1.name = r2.name := hr.2.1
    have hn2 : x.name = y.name := hxy.2.1
    simp only [insertByName]
    rw [hn1, hn2]
    by_cases h : r2.name ≤ y.name
    · rw [if_pos h, if_pos h]
      exact .cons hr (.cons hxy htail)
    · rw [if_neg h, if_neg h]
      exact .cons hxy ih

/-- `ORDER BY name` respects pairwise `metaEqExceptSecrets`. -/
theorem sortByName_forall2 {l1 l2 : List CredRow}
    (h : List.Forall₂ metaEqExceptSecrets l1 l2) :
    List.Forall₂ metaEqExceptSecrets (sortByName l1) (sortByName l2) := by
  induction h with
  | nil => exact .nil
  | cons hxy _ ih => exact insertByName_forall2 hxy ih

/-- Mapping a function that identifies pairwise-related elements yields
equal lists. -/
theorem map_eq_of_forall2 {α β : Type} {f : α → β} {R : α → α → Prop}
    {l1 l2 : List α} (h : List.Forall₂ R l1 l2)
    (hf : ∀ a b, R a b → f a = f b) : l1.map f = l2.map f := by
  induction h with
  | nil => rfl
  | cons hxy _ ih => simp [hf _ _ hxy, ih]

/-! ## Claim theorems -/

/-- C6: for every plaintext string `s` and every key, opening a sealed blob
returns the original plaintext — `decrypt (encrypt s) = s` for the
field-level authenticated encryption, with the fresh random nonce (of the
standard GCM length) prepended to the ciphertext in the blob. -/
theorem seal_open_roundtrip (key nonce : List Nat) (s : String)
    (hnonce : nonce.length = nonceLen) :
    (decrypt key (encrypt key nonce (strBytes s))).map bytesStr = .ok s := by
  rw [decrypt_encrypt key nonce (strBytes s) hnonce]
  simp [Except.map, bytesStr_strBytes]

/-- Witness for C6 at a concrete key, nonce and plaintext. -/
theorem seal_open_roundtrip_witness :
    demoNonce.length = nonceLen ∧
      (decrypt demoKey (encrypt demoKey demoNonce (strBytes "sk-test-123"))).map
        bytesStr = .ok "sk-test-123" :=
  ⟨by decide, seal_open_roundtrip demoKey demoNonce "sk-test-123" (by decide)⟩

/-- C2 fails on the code: the connection never enables SQLite foreign-key
enforcement, and `RotateCredential` never checks that the credential
exists, so rotating the absent name `ghost` does not fail with `NotFound`:
it succeeds, updates no credential row, and appends an orphan rotation
record referencing `ghost` — contradicting the declared `FOREIGN KEY`
constraint of the `rotations` table. -/
theorem rotate_absent_name_succeeds_bug :
    RotateCredential dRotGhost "ghost" ghostResult "plug" "manual" 70 "rot-2"
        demoNonce demoNonce noFaults =
      .ok { dRotGhost with
        rotations := [mkRotRow "rot-2" "ghost" ["secret_key"] "" "plug" 70 "manual" []] } := by
  decide

/-- C3 fails on the code: `DeleteCredential` removes the credential row and
reports `NotFound` on a second delete, but the declared `ON DELETE CASCADE`
never runs (foreign keys are off on this connection), so the rotation
history of the deleted credential survives. -/
theorem delete_skips_rotation_history_bug :
    DeleteCredential dDelete "x" = .ok dDeleteAfter ∧
      dDeleteAfter.rotations = [rotX] ∧
      findCred dDeleteAfter "x" = none ∧
      DeleteCredential dDeleteAfter "x" = .fail .notFound dDeleteAfter := by
  decide

/-- C7 counterexample: a migration run that crashed after adding only the
`environment` column (one of the schema states reachable by a mid-migration
failure) leaves a schema on which every retry of `migrateV2` fails with the
duplicate-column store error, because `ALTER TABLE ADD COLUMN` is not
idempotent and the no-op check looks only at `public_key`; and a crash
after all six columns but before the rotations-table statement leaves
retries succeeding as no-ops that never create the `rotations` table. -/
theorem migrate_retry_after_crash_counterexample :
    migrateV2 (applyAlters v1Schema 1) = .error .storeError ∧
      (applyAlters v1Schema 1).credCols = v1Cols ++ ["environment"] ∧
      migrateV2 (applyAlters v1Schema 6) = .ok (applyAlters v1Schema 6) ∧
      (applyAlters v1Schema 6).hasRotationsTable = false :=
  ⟨rfl, rfl, rfl, rfl⟩

/-- C7 amended: re-running `migrateV2` succeeds exactly in the two extreme
cases — the schema already has `public_key` (the run is a no-op, even when
the rotations table is missing) or none of the six new columns exist yet
(the run installs the full flexible schema).  A schema where `environment`
was added but `public_key` was not makes every retry fail. -/
theorem migrate_retry_behavior (s : Schema) :
    ("public_key" ∈ s.credCols → migrateV2 s = .ok s) ∧
      ((∀ c ∈ migrationCols, c ∉ s.credCols) →
        migrateV2 s = .ok { credCols := s.credCols ++ migrationCols,
                            hasRotationsTable := true }) ∧
      ("environment" ∈ s.credCols → "public_key" ∉ s.credCols →
        migrateV2 s = .error .storeError) := by
  refine ⟨fun h => by simp [migrateV2, h], fun h => ?_, fun h1 h2 => ?_⟩
  · have he := h "environment" (by simp [migrationCols])
    have hp := h "public_key" (by simp [migrationCols])
    have hu := h "url" (by simp [migrationCols])
    have hc := h "config" (by simp [migrationCols])
    have hk := h "key_id" (by simp [migrationCols])
    have hl := h "last_rotated" (by simp [migrationCols])
    simp [migrateV2, hp, migrationCols, List.foldlM, addColumn, he, hu, hc, hk, hl,
      List.mem_append, List.append_assoc, Bind.bind, Except.bind, Pure.pure, Except.pure]
  · simp [migrateV2, h2, migrationCols, List.foldlM, addColumn, h1, Bind.bind, Except.bind]

/-- Witness for the amended C7 at the fully migrated schema, the fresh v1
schema and the crashed-after-one-column schema. -/
theorem migrate_retry_behavior_witness :
    migrateV2 fullSchema = .ok fullSchema ∧
      migrateV2 v1Schema = .ok { credCols := v1Schema.credCols ++ migrationCols,
                                 hasRotationsTable := true } ∧
      migrateV2 (applyAlters v1Schema 1) = .error .storeError :=
  ⟨(migrate_retry_behavior fullSchema).1 (by decide),
   (migrate_retry_behavior v1Schema).2.1 (by decide),
   (migrate_retry_behavior (applyAlters v1Schema 1)).2.2 (by decide) (by decide)⟩

/-- C8 counterexample: `loadOrCreateSalt` keeps the stored salt only when
the `salt` config row holds exactly 16 bytes; for a row holding any other
value (here 3 bytes) the master salt is regenerated and the row replaced
on the next open, so the salt is not preserved "whatever the stored config
row contains". -/
theorem salt_regenerated_counterexample :
    (loadOrCreateSalt [("salt", [1, 2, 3])] demoSalt).1 = demoSalt ∧
      demoSalt ≠ [1, 2, 3] ∧
      (loadOrCreateSalt [("salt", [1, 2, 3])] demoSalt).2 = [("salt", demoSalt)] := by
  decide

/-- C8 amended: the master salt is generated once at the first open of a
vault (no stored `salt` row) and, as long as the stored row still holds
that 16-byte value, every subsequent open returns the identical salt,
leaves the config table unchanged, and therefore derives the same key for
a given password; only a row whose value is not exactly 16 bytes long is
regenerated and replaced. -/
theorem salt_stable_across_opens (tbl : List (String × List Nat))
    (fresh fresh' : List Nat) (pw : String)
    (h0 : lookupConfig tbl "salt" = none) (hlen : fresh.length = saltLen) :
    (loadOrCreateSalt tbl fresh).1 = fresh ∧
      loadOrCreateSalt (loadOrCreateSalt tbl fresh).2 fresh' =
        (fresh, (loadOrCreateSalt tbl fresh).2) ∧
      deriveKey pw (loadOrCreateSalt (loadOrCreateSalt tbl fresh).2 fresh').1 =
        deriveKey pw fresh := by
  have hfind : tbl.find? (fun p => decide (p.1 = "salt")) = none := by
    simpa [lookupConfig, Option.map_eq_none'] using h0
  have hany : (tbl.any fun p => decide (p.1 = "salt")) = false := by
    rw [List.any_eq_false]
    intro p hp
    have := List.find?_eq_none.mp hfind p hp
    simpa using this
  have h1 : loadOrCreateSalt tbl fresh = (fresh, tbl ++ [("salt", fresh)]) := by
    simp [loadOrCreateSalt, h0, insertOrReplaceConfig, hany]
  have h2 : lookupConfig (tbl ++ [("salt", fresh)]) "salt" = some fresh := by
    simp [lookupConfig, List.find?_append, hfind]
  have h3 : loadOrCreateSalt (tbl ++ [("salt", fresh)]) fresh' =
      (fresh, tbl ++ [("salt", fresh)]) := by
    simp [loadOrCreateSalt, h2, hlen]
  exact ⟨by rw [h1], by rw [h1, h3], by rw [h1, h3]⟩

/-- C5: adding a credential whose name already exists fails with
`Duplicate` and leaves the store (in particular the original record)
unchanged; adding a credential with neither secret nor public value set
fails with `InvalidInput` and inserts nothing. -/
theorem add_duplicate_or_invalid (d : Database) (cred : Credential)
    (nonceS nonceP : List Nat) (id : String) (now : Int) :
    ((∃ r ∈ d.credentials, r.name = cred.name) → cred.Validate = none →
        AddCredentialV2 d cred nonceS nonceP id now = .fail .duplicate d) ∧
      (cred.secretKey = none → cred.publicKey = none →
        ∃ msg, AddCredentialV2 d cred nonceS nonceP id now =
          .fail (.invalidInput msg) d) := by
  constructor
  · intro hex hval
    have hany : (d.credentials.any fun r => r.name = cred.name) = true := by
      rw [List.any_eq_true]
      obtain ⟨r, hr, he⟩ := hex
      exact ⟨r, hr, by simpa using he⟩
    simp [AddCredentialV2, hval, hany]
  · intro hs hp
    by_cases hname : cred.name = ""
    · exact ⟨"name is required", by simp [AddCredentialV2, Credential.Validate, hname]⟩
    · exact ⟨"at least one of secret or public key is required",
        by simp [AddCredentialV2, Credential.Validate, hname, hs, hp]⟩

/-- Witness for C5: a duplicate add and a no-value add against the
single-credential store. -/
theorem add_duplicate_or_invalid_witness :
    AddCredentialV2 dRotGhost { name := "x", secretKey := some "zz" }
        demoNonce demoNonce "id2" 99 = .fail .duplicate dRotGhost ∧
      ∃ msg, AddCredentialV2 dRotGhost { name := "y" }
          demoNonce demoNonce "id3" 99 = .fail (.invalidInput msg) dRotGhost :=
  ⟨(add_duplicate_or_invalid dRotGhost { name := "x", secretKey := some "zz" }
        demoNonce demoNonce "id2" 99).1
      ⟨rowX, by simp [dRotGhost], rfl⟩ rfl,
   (add_duplicate_or_invalid dRotGhost { name := "y" }
        demoNonce demoNonce "id3" 99).2 rfl rfl⟩

/-- C10: a credential added via `AddCredentialV2` with no secret key set
(public-only) is stored with the zero-length placeholder blob in the
NOT NULL secret column; `GetCredentialV2` then succeeds and returns a nil
`SecretKey` (the placeholder is skipped, never passed to decryption)
rather than failing with `DecryptFailure`. -/
theorem add_public_only_then_get (d : Database) (cred : Credential) (p : String)
    (nonceS nonceP : List Nat) (id : String) (now : Int)
    (hsec : cred.secretKey = none) (hpub : cred.publicKey = some p)
    (hnonce : nonceP.length = nonceLen)
    (hfresh : (d.credentials.any fun r => r.name = cred.name) = false)
    (hname : cred.name ≠ "") :
    ∃ d', AddCredentialV2 d cred nonceS nonceP id now = .ok d' ∧
      GetCredentialV2 d' cred.name = .ok
        { id := id, name := cred.name, apiType := cred.apiType, metadata := "",
          environment := cred.environment,
          publicKey := if p = "" then none else some p, secretKey := none,
          url := cred.url, config := cred.config, keyId := cred.keyId,
          lastRotated := none, createdAt := now, updatedAt := now } := by
  have hval : cred.Validate = none := by
    simp [Credential.Validate, hname, hpub]
  have hfind : d.credentials.find? (fun r => decide (r.name = cred.name)) = none := by
    rw [List.find?_eq_none]
    intro r hr
    have h1 := List.any_eq_false.mp hfresh r hr
    simpa using h1
  have hcfg : (if cred.config = [] then (none : Option (List (String × String)))
      else some cred.config).getD [] = cred.config := by
    by_cases h : cred.config = [] <;> simp [h]
  simp only [AddCredentialV2, hval, hfresh, hsec, hpub, Bool.false_eq_true,
    if_false]
  by_cases hpe : p = ""
  · refine ⟨_, rfl, ?_⟩
    simp [GetCredentialV2, findCred, List.find?_append, hfind, hpe, hcfg]
  · refine ⟨_, rfl, ?_⟩
    have hlen : 0 < (encrypt d.key nonceP (strBytes p)).length := by
      simp [encrypt, List.length_append]
      exact Or.inl (by rw [hnonce]; norm_num [nonceLen])
    simp [GetCredentialV2, findCred, List.find?_append, hfind, hpe, hlen,
      decrypt_encrypt d.key nonceP (strBytes p) hnonce, bytesStr_strBytes, hcfg]

/-- Witness for C10: a public-only credential in an empty store. -/
theorem add_public_only_then_get_witness :
    ∃ d', AddCredentialV2
        { key := demoKey, credentials := [], rotations := [],
          configTable := [("salt", demoSalt)] }
        { name := "x", publicKey := some "pub" } demoNonce demoNonce "id1" 100 =
        .ok d' ∧
      GetCredentialV2 d' "x" = .ok
        { id := "id1", name := "x", apiType := "", metadata := "",
          environment := none,
          publicKey := if "pub" = "" then none else some "pub",
          secretKey := none, url := none, config := [], keyId := none,
          lastRotated := none, createdAt := 100, updatedAt := 100 } :=
  add_public_only_then_get
    { key := demoKey, credentials := [], rotations := [],
      configTable := [("salt", demoSalt)] }
    { name := "x", publicKey := some "pub" } "pub" demoNonce demoNonce "id1" 100
    rfl rfl (by decide) rfl (by decide)

/-- C9: `ListCredentials` returns only non-secret metadata and never
touches key material — two stores whose credential rows agree on every
column except the encrypted secret/public blobs produce identical listings
(noninterference by construction: the projection selects neither blob). -/
theorem list_no_secret_dependence (d1 d2 : Database)
    (h : List.Forall₂ metaEqExceptSecrets d1.credentials d2.credentials) :
    ListCredentials d1 = ListCredentials d2 := by
  unfold ListCredentials
  exact map_eq_of_forall2 (sortByName_forall2 h) (fun a b => credMeta_congr)

set_option maxHeartbeats 3200000 in
/-- C1: `RotateCredential` is all-or-nothing.  When the credential exists,
a successful call persists the rotated fields (exactly those present in
the outcome, other columns untouched), the `last_rotated`/`updated_at`
stamps, and exactly one appended rotation record, while leaving every
other credential row intact; a failing call (any statement or the commit
failing) leaves the persisted state exactly as it was. -/
theorem rotate_all_or_nothing (d : Database) (name : String) (result : RotationResult)
    (pluginName rotatedBy : String) (now : Int) (recId : String)
    (nS nP : List Nat) (f : RotateFaults) (r : CredRow)
    (hex : findCred d name = some r) :
    (∀ e dr, RotateCredential d name result pluginName rotatedBy now recId nS nP f =
        .fail e dr → dr = d) ∧
      (∀ d', RotateCredential d name result pluginName rotatedBy now recId nS nP f =
          .ok d' →
        d'.key = d.key ∧ d'.configTable = d.configTable ∧
        d'.rotations = d.rotations ++
          [mkRotRow recId name (rotatedFieldsOf result) result.keyId pluginName now
            rotatedBy result.metadata] ∧
        (∀ q ∈ d.credentials, q.name ≠ name → q ∈ d'.credentials) ∧
        ∃ r', findCred d' name = some r' ∧
          r'.lastRotated = some now ∧ r'.updatedAt = now ∧
          (∀ s, result.newSecretKey = some s →
            r'.apiKey = encrypt d.key nS (strBytes s)) ∧
          (result.newSecretKey = none → r'.apiKey = r.apiKey) ∧
          (∀ p, result.newPublicKey = some p →
            r'.publicKey = some (encrypt d.key nP (strBytes p))) ∧
          (result.newPublicKey = none → r'.publicKey = r.publicKey) ∧
          (∀ u, result.newURL = some u → r'.url = some u) ∧
          (result.newURL = none → r'.url = r.url) ∧
          (result.keyId ≠ "" → r'.keyId = some result.keyId) ∧
          (result.keyId = "" → r'.keyId = r.keyId) ∧
          r'.id = r.id ∧ r'.name = r.name ∧ r'.apiType = r.apiType ∧
          r'.metadata = r.metadata ∧ r'.environment = r.environment ∧
          r'.config = r.config ∧ r'.createdAt = r.createdAt) := by
  constructor
  · intro e dr hfail
    exact rotate_fail_unchanged d name result pluginName rotatedBy now recId nS nP f
      e dr hfail
  · intro d' hok
    have htx := rotate_ok_tx d name result pluginName rotatedBy now recId nS nP f d' hok
    have hd' := rotateTx_ok_eq d name result pluginName rotatedBy now recId nS nP f d' htx
    subst hd'
    refine ⟨rfl, rfl, rfl, ?_, ?_⟩
    · intro q hq hqname
      simp only [rotateApplied]
      rcases result.newSecretKey with _ | s <;>
        rcases result.newPublicKey with _ | p <;>
        rcases result.newURL with _ | u <;>
        by_cases hk : result.keyId = "" <;>
        simp only [hk, if_pos, if_neg, if_true, if_false] <;>
        (repeat (first | exact hq | exact hqname | apply mem_updateWhere_of_ne))
    · have hex2 : List.find? (fun q => decide (q.name = name)) d.credentials = some r :=
        hex
      rcases hs : result.newSecretKey with _ | s <;>
        rcases hp : result.newPublicKey with _ | p <;>
        rcases hu : result.newURL with _ | u <;>
        by_cases hk : result.keyId = "" <;>
        simp only [rotateApplied, findCred, hs, hp, hu, hk, if_pos, if_neg,
          if_true, if_false] <;>
        simp [find?_updateWhere, hex2]

/-- Witness for C1 at the single-credential store, rotating only the
secret of `x` with the fault-free oracle. -/
theorem rotate_all_or_nothing_witness :
    (∀ e dr, RotateCredential dRotGhost "x" ghostResult "plug" "manual" 70 "rot-9"
        demoNonce demoNonce noFaults = .fail e dr → dr = dRotGhost) ∧
      (∀ d', RotateCredential dRotGhost "x" ghostResult "plug" "manual" 70 "rot-9"
          demoNonce demoNonce noFaults = .ok d' →
        d'.key = dRotGhost.key ∧ d'.configTable = dRotGhost.configTable ∧
        d'.rotations = dRotGhost.rotations ++
          [mkRotRow "rot-9" "x" (rotatedFieldsOf ghostResult) ghostResult.keyId
            "plug" 70 "manual" ghostResult.metadata] ∧
        (∀ q ∈ dRotGhost.credentials, q.name ≠ "x" → q ∈ d'.credentials) ∧
        ∃ r', findCred d' "x" = some r' ∧
          r'.lastRotated = some 70 ∧ r'.updatedAt = 70 ∧
          (∀ s, ghostResult.newSecretKey = some s →
            r'.apiKey = encrypt dRotGhost.key demoNonce (strBytes s)) ∧
          (ghostResult.newSecretKey = none → r'.apiKey = rowX.apiKey) ∧
          (∀ p, ghostResult.newPublicKey = some p →
            r'.publicKey = some (encrypt dRotGhost.key demoNonce (strBytes p))) ∧
          (ghostResult.newPublicKey = none → r'.publicKey = rowX.publicKey) ∧
          (∀ u, ghostResult.newURL = some u → r'.url = some u) ∧
          (ghostResult.newURL = none → r'.url = rowX.url) ∧
          (ghostResult.keyId ≠ "" → r'.keyId = some ghostResult.keyId) ∧
          (ghostResult.keyId = "" → r'.keyId = rowX.keyId) ∧
          r'.id = rowX.id ∧ r'.name = rowX.name ∧ r'.apiType = rowX.apiType ∧
          r'.metadata = rowX.metadata ∧ r'.environment = rowX.environment ∧
          r'.config = rowX.config ∧ r'.createdAt = rowX.createdAt) :=
  rotate_all_or_nothing dRotGhost "x" ghostResult "plug" "manual" 70 "rot-9"
    demoNonce demoNonce noFaults rowX (by decide)

/-- C4: the `rotatedFields` of the appended audit record are derived from
exactly the outcome fields that were set — not from any caller-supplied
list (no parameter of `RotateCredential` carries a field list) — and after
a successful rotation whose outcome sets only the secret key, the latest
record returned by `GetRotationHistory` names exactly `secret_key`,
neither `public_key` nor `url`. -/
theorem rotate_audit_fields (d : Database) (name : String) (result : RotationResult)
    (pluginName rotatedBy : String) (now : Int) (recId : String)
    (nS nP : List Nat) (f : RotateFaults) (r : CredRow) (d' : Database)
    (limit : Nat)
    (_hex : findCred d name = some r)
    (hok : RotateCredential d name result pluginName rotatedBy now recId nS nP f =
      .ok d')
    (hfresh : ∀ q ∈ d.rotations, q.rotatedAt < now)
    (hlim : 1 ≤ limit) :
    d'.rotations = d.rotations ++
      [mkRotRow recId name (rotatedFieldsOf result) result.keyId pluginName now
        rotatedBy result.metadata] ∧
    (∀ s, result.newSecretKey = some s → result.newPublicKey = none →
      result.newURL = none →
      ∃ rec, (GetRotationHistory d' name limit).head? = some rec ∧
        rec.rotatedFields = ["secret_key"]) := by
  have htx := rotate_ok_tx d name result pluginName rotatedBy now recId nS nP f d' hok
  have hd' := rotateTx_ok_eq d name result pluginName rotatedBy now recId nS nP f d' htx
  subst hd'
  constructor
  · rfl
  · intro s hs hp hu
    have hfields : rotatedFieldsOf result = ["secret_key"] := by
      simp [rotatedFieldsOf, hs, hp, hu]
    have hrot : (rotateApplied d name result pluginName rotatedBy now recId nS nP).rotations =
        d.rotations ++ [mkRotRow recId name (rotatedFieldsOf result) result.keyId
          pluginName now rotatedBy result.metadata] := rfl
    unfold GetRotationHistory
    rw [hrot, List.filter_append]
    have hfilter1 : [mkRotRow recId name (rotatedFieldsOf result) result.keyId
        pluginName now rotatedBy result.metadata].filter
          (fun q => decide (q.credentialName = name)) =
        [mkRotRow recId name (rotatedFieldsOf result) result.keyId pluginName now
          rotatedBy result.metadata] := by
      simp [mkRotRow]
    rw [hfilter1]
    obtain ⟨t, ht⟩ := sortDesc_append_greatest
      (d.rotations.filter (fun q => decide (q.credentialName = name)))
      (mkRotRow recId name (rotatedFieldsOf result) result.keyId pluginName now
        rotatedBy result.metadata)
      (fun y hy => hfresh y (List.mem_of_mem_filter hy))
    rw [ht]
    cases limit with
    | zero => omega
    | succ k =>
      rw [List.take_succ_cons, List.map_cons, List.head?_cons]
      exact ⟨_, rfl, by simp [rotRecordOf, mkRotRow, hfields]⟩

/-- Witness for C4: rotating only the secret of `x` in the
single-credential store, then reading the history head. -/
theorem rotate_audit_fields_witness :
    (rotateApplied dRotGhost "x" ghostResult "plug" "manual" 70 "rot-9"
        demoNonce demoNonce).rotations =
      dRotGhost.rotations ++
        [mkRotRow "rot-9" "x" (rotatedFieldsOf ghostResult) ghostResult.keyId
          "plug" 70 "manual" ghostResult.metadata] ∧
    (∀ s, ghostResult.newSecretKey = some s → ghostResult.newPublicKey = none →
      ghostResult.newURL = none →
      ∃ rec, (GetRotationHistory (rotateApplied dRotGhost "x" ghostResult "plug"
          "manual" 70 "rot-9" demoNonce demoNonce) "x" 10).head? = some rec ∧
        rec.rotatedFields = ["secret_key"]) :=
  rotate_audit_fields dRotGhost "x" ghostResult "plug" "manual" 70 "rot-9"
    demoNonce demoNonce noFaults rowX
    (rotateApplied dRotGhost "x" ghostResult "plug" "manual" 70 "rot-9"
      demoNonce demoNonce)
    10 (by decide) (by decide)
    (by intro q hq; simp [dRotGhost] at hq) (by decide)

/-- Witness for C9: the single-credential store against a copy whose
secret and public blobs hold different ciphertexts. -/
theorem list_no_secret_dependence_witness :
    ListCredentials dRotGhost =
      ListCredentials { dRotGhost with
        credentials := [{ rowX with
          apiKey := encrypt demoKey demoNonce (strBytes "other"),
          publicKey := some (encrypt demoKey demoNonce (strBytes "q")) }] } :=
  list_no_secret_dependence dRotGhost
    { dRotGhost with
      credentials := [{ rowX with
        apiKey := encrypt demoKey demoNonce (strBytes "other"),
        publicKey := some (encrypt demoKey demoNonce (strBytes "q")) }] }
    (.cons ⟨rfl, rfl, rfl, rfl, rfl, rfl, rfl, rfl, rfl, rfl, rfl⟩ .nil)

/-- Witness for the amended C8: a fresh vault, then a second open. -/
theorem salt_stable_across_opens_witness :
    (loadOrCreateSalt [] demoSalt).1 = demoSalt ∧
      loadOrCreateSalt (loadOrCreateSalt [] demoSalt).2 (List.replicate 16 2) =
        (demoSalt, (loadOrCreateSalt [] demoSalt).2) ∧
      deriveKey "pw" (loadOrCreateSalt (loadOrCreateSalt [] demoSalt).2
          (List.replicate 16 2)).1 =
        deriveKey "pw" demoSalt :=
  salt_stable_across_opens [] demoSalt (List.replicate 16 2) "pw" (by decide) (by decide)

end ApiVault
